import Mathlib

/-!
Shallow embedding of the hyber GUI toolkit core (widget tree, layout/build pass,
instruction collections, id generation, button event handling), together with
theorems settling the specified properties of that core.

Machine integers (`usize`) are modelled as `Nat`; wrapping increment/decrement is
written with an explicit `% USIZE`; `usize` subtraction inside the layout pass is
`Nat` subtraction, exact whenever the theorems' hypotheses keep it from
underflowing.
-/

namespace Hyber

/-- Number of values of the 64-bit `usize` type; `usize::MAX = USIZE - 1`. -/
def USIZE : Nat := 2 ^ 64

/-- `util.rs`: `struct Vector2D { x: usize, y: usize }`. -/
structure Vector2D where
  x : Nat
  y : Nat
deriving DecidableEq

namespace Vector2D

/-- `Vector2D::new`. -/
def new (x y : Nat) : Vector2D := ⟨x, y⟩

/-- `Vector2D::min`: component-wise minimum. -/
def min (a b : Vector2D) : Vector2D := ⟨Nat.min a.x b.x, Nat.min a.y b.y⟩

/-- `impl Add for Vector2D`. -/
def add (a b : Vector2D) : Vector2D := ⟨a.x + b.x, a.y + b.y⟩

/-- `impl Sub for Vector2D` (`usize` subtraction; exact when no underflow occurs,
which the theorems below guarantee by hypothesis). -/
def sub (a b : Vector2D) : Vector2D := ⟨a.x - b.x, a.y - b.y⟩

/-- `impl Mul<usize> for Vector2D`. -/
def mulScalar (a : Vector2D) (k : Nat) : Vector2D := ⟨a.x * k, a.y * k⟩

end Vector2D

/-- `util.rs`: `struct Color { a, r, g, b: u8 }`. -/
structure Color where
  a : Nat
  r : Nat
  g : Nat
  b : Nat
deriving DecidableEq

/-- `renderer.rs`: `enum DrawImageOptions`. -/
inductive DrawImageOptions where
  | originalSize
  | resize (width height : Nat)
  | resizeMultiplyer (mult : Nat)
deriving DecidableEq

/-- `renderer.rs`: `enum RenderInstruction` (the draw primitives cached per widget;
their payloads are carried but never interpreted by the engine itself). -/
inductive RenderInstruction where
  | clear (color : Color)
  | drawPoint (point : Vector2D) (color : Color)
  | drawLine (pointA pointB : Vector2D) (color : Color)
  | drawRect (point size : Vector2D) (color : Color)
  | drawImage (point : Vector2D) (path : String) (options : DrawImageOptions)
  | drawText (point : Vector2D) (fontSize : Nat) (string : String) (color : Color)
deriving DecidableEq

/-- `util.rs`: `struct IDMachine { id: usize }`. -/
structure IDMachine where
  id : Nat
deriving DecidableEq

/-- `IDMachine::new`: counter starts at 0. -/
def IDMachine.new : IDMachine := ⟨0⟩

/-- `IDMachine::fetch_id`: `self.id += 1; self.id` — wrapping `usize` increment,
returning the incremented counter. -/
def IDMachine.fetch_id (m : IDMachine) : Nat × IDMachine :=
  ((m.id + 1) % USIZE, ⟨(m.id + 1) % USIZE⟩)

/-- `BTreeMap::insert` on an association list kept sorted by strictly ascending key
(the `BTreeMap` representation): replace the value if the key exists, otherwise
insert at the sorted position. -/
def mapInsert (k : Nat) (v : List RenderInstruction) :
    List (Nat × List RenderInstruction) → List (Nat × List RenderInstruction)
  | [] => [(k, v)]
  | (k', v') :: rest =>
    if k < k' then (k, v) :: (k', v') :: rest
    else if k = k' then (k, v) :: rest
    else (k', v') :: mapInsert k v rest

/-- `BTreeMap::remove`: delete the entry with the given key, if present. -/
def mapRemove (k : Nat) :
    List (Nat × List RenderInstruction) → List (Nat × List RenderInstruction)
  | [] => []
  | (k', v') :: rest => if k = k' then rest else (k', v') :: mapRemove k rest

/-- `BTreeMap::get`. -/
def mapLookup (k : Nat) :
    List (Nat × List RenderInstruction) → Option (List RenderInstruction)
  | [] => none
  | (k', v') :: rest => if k = k' then some v' else mapLookup k rest

/-- `renderer.rs`: `struct RenderInstructionCollection { pairs: BTreeMap<usize,
Vec<RenderInstruction>> }`; iterating `pairs` front-to-back is the map's
ascending-key iteration. -/
structure RenderInstructionCollection where
  pairs : List (Nat × List RenderInstruction)
deriving DecidableEq

/-- `RenderInstructionCollection::new`. -/
def RenderInstructionCollection.new : RenderInstructionCollection := ⟨[]⟩

/-- `RenderInstructionCollection::replace_or_insert`: `self.pairs.insert(id, instructions)`. -/
def RenderInstructionCollection.replace_or_insert (c : RenderInstructionCollection)
    (id : Nat) (instructions : List RenderInstruction) : RenderInstructionCollection :=
  ⟨mapInsert id instructions c.pairs⟩

/-- `RenderInstructionCollection::remove`: `self.pairs.remove(&id)`. -/
def RenderInstructionCollection.remove (c : RenderInstructionCollection) (id : Nat) :
    RenderInstructionCollection :=
  ⟨mapRemove id c.pairs⟩

/-- `BTreeMap::get` on the collection (observation only). -/
def RenderInstructionCollection.lookup (c : RenderInstructionCollection) (id : Nat) :
    Option (List RenderInstruction) :=
  mapLookup id c.pairs

/-- `widget.rs`: `enum Axis { Horizontal, Vertical }`. -/
inductive Axis where
  | horizontal
  | vertical
deriving DecidableEq

/-- Observation record for one resolvable child processed by the `build` loop
(`widget.rs:284-316`); pure instrumentation, it does not influence the pass.
`forced` records whether `set_dirty(true)` was called on the child (the dirty
propagation branch), `origSize` the size the child reported, `availMax` the
remaining available space, and `passedPos`/`passedSize` the arguments of the
recursive `build` call on that child. -/
structure ChildCall where
  forced : Bool
  origSize : Vector2D
  availMax : Vector2D
  passedPos : Vector2D
  passedSize : Vector2D
deriving DecidableEq

/-- A widget as the default `Widget::build` (`widget.rs`) sees it: the state every
implementor stores behind the trait (`id`, `dirty`, `position`, `size`, `axis`,
`offset`, `children`) plus its `recipe()` as a function of the current position and
size (each implementor's `recipe` reads only its own current fields). A `none`
child models a `Weak` reference whose `upgrade()` fails. -/
inductive WTree : Type where
  | mk (id : Nat) (dirty : Bool) (position size : Vector2D) (axis : Axis)
      (offset : Vector2D) (recipe : Vector2D → Vector2D → List RenderInstruction)
      (children : List (Option WTree))

namespace WTree

/-- `Widget::id`. -/
def id : WTree → Nat
  | .mk i _ _ _ _ _ _ _ => i

/-- `Widget::is_dirty`. -/
def dirty : WTree → Bool
  | .mk _ d _ _ _ _ _ _ => d

/-- `Widget::position`. -/
def position : WTree → Vector2D
  | .mk _ _ p _ _ _ _ _ => p

/-- `Widget::size`. -/
def size : WTree → Vector2D
  | .mk _ _ _ s _ _ _ _ => s

/-- `Widget::axis`. -/
def axis : WTree → Axis
  | .mk _ _ _ _ ax _ _ _ => ax

/-- `Widget::offset`. -/
def offset : WTree → Vector2D
  | .mk _ _ _ _ _ off _ _ => off

/-- `Widget::recipe` (as a function of current position and size). -/
def recipe : WTree → Vector2D → Vector2D → List RenderInstruction
  | .mk _ _ _ _ _ _ r _ => r

/-- `Widget::get_children`. -/
def children : WTree → List (Option WTree)
  | .mk _ _ _ _ _ _ _ cs => cs

/-- `Widget::set_position` (implementors store the position unchanged otherwise). -/
def set_position : WTree → Vector2D → WTree
  | .mk i d _ s ax off r cs, p => .mk i d p s ax off r cs

/-- `Widget::set_size` (every implementor sets `dirty = true` and stores the size). -/
def set_size : WTree → Vector2D → WTree
  | .mk i _ p _ ax off r cs, s => .mk i true p s ax off r cs

/-- `Widget::set_id`. -/
def set_id : WTree → Nat → WTree
  | .mk _ d p s ax off r cs, i => .mk i d p s ax off r cs

/-- `Widget::set_dirty`. -/
def set_dirty : WTree → Bool → WTree
  | .mk i _ p s ax off r cs, d => .mk i d p s ax off r cs

/-- Replace the child list (the loop writes the rebuilt children back in place). -/
def withChildren : WTree → List (Option WTree) → WTree
  | .mk i d p s ax off r _, cs => .mk i d p s ax off r cs

theorem sizeOf_set_dirty (t : WTree) (b : Bool) : sizeOf (t.set_dirty b) = sizeOf t := by
  cases t
  cases b
  all_goals simp [set_dirty]

end WTree

/-- The `match axis` step at the end of the loop body (`widget.rs:305-314`):
subtract the consumed dimension from `max` and advance `position`; returns the
updated `(max, position)`. -/
def advanceAxis (ax : Axis) (mx position csize : Vector2D) : Vector2D × Vector2D :=
  match ax with
  | .horizontal =>
    (Vector2D.mk (mx.x - csize.x) mx.y, Vector2D.mk (position.x + csize.x) position.y)
  | .vertical =>
    (Vector2D.mk mx.x (mx.y - csize.y), Vector2D.mk position.x (position.y + csize.y))

/-- Result of one `build` call: the rebuilt widget, the final id machine and
instruction collection, and the loop's observation trace, aligned index-by-index
with `children` (`none` for a child whose weak reference does not resolve). -/
structure BuildOut where
  widget : WTree
  machine : IDMachine
  collection : RenderInstructionCollection
  trace : List (Option ChildCall)

/-- Result of the child loop of `build`: the rebuilt child list, the final id
machine and instruction collection, and the observation trace. -/
structure LoopOut where
  children : List (Option WTree)
  machine : IDMachine
  collection : RenderInstructionCollection
  trace : List (Option ChildCall)

mutual

/-- `Widget::build` (default trait method, `widget.rs:251-317`) as a pure state
transformer on `(widget, id machine, instruction collection)`. The dirty block
reads `recipe()` after `set_position`/`set_size`, so the recipe function is
applied to the freshly assigned position and size; `get_fields` reads `children`,
`axis`, `offset` from `self`, and since the dirty block leaves those three fields
untouched they are read off the input widget. -/
def WTree.build : WTree → Vector2D → Vector2D → IDMachine → RenderInstructionCollection →
    BuildOut
  | .mk i d p s ax off r cs, position, mx, m, c =>
    let db :
        WTree × IDMachine × RenderInstructionCollection :=
      if d then
        let w1 := (WTree.mk i d p s ax off r cs).set_position position
        let w2 := w1.set_size mx
        let cA := c.remove w2.id
        let w3 := w2.set_id (m.fetch_id).1
        let cB := cA.replace_or_insert w3.id (w3.recipe w3.position w3.size)
        (w3.set_dirty false, (m.fetch_id).2, cB)
      else (WTree.mk i d p s ax off r cs, m, c)
    -- `max -= offset * 2; position += offset;`
    let lp := buildChildren cs (position.add off) (mx.sub (off.mulScalar 2)) ax false
      db.2.1 db.2.2
    ⟨db.1.withChildren lp.children, lp.machine, lp.collection, lp.trace⟩
termination_by t _ _ _ _ => sizeOf t
decreasing_by
  simp_wf
  try omega

/-- The child loop of `Widget::build` (`widget.rs:284-316`): walks the children in
order carrying the `children_dirty` flag, the running `position`/`max`, the id
machine and the instruction collection. -/
def buildChildren : List (Option WTree) → Vector2D → Vector2D → Axis → Bool →
    IDMachine → RenderInstructionCollection → LoopOut
  | [], _, _, _, _, m, c => ⟨[], m, c, []⟩
  | none :: rest, position, mx, ax, cd, m, c =>
    let r := buildChildren rest position mx ax cd m c
    ⟨none :: r.children, r.machine, r.collection, none :: r.trace⟩
  | some ch :: rest, position, mx, ax, cd, m, c =>
    let ch1 := if cd then ch.set_dirty true else ch
    let cd' := if cd then true else ch.dirty
    let csize := ch1.size.min mx
    let call : ChildCall := ⟨cd, ch1.size, mx, position, csize⟩
    let rb := ch1.build position csize m c
    let next := advanceAxis ax mx position csize
    let rr := buildChildren rest next.2 next.1 ax cd' rb.machine rb.collection
    ⟨some rb.widget :: rr.children, rr.machine, rr.collection, some call :: rr.trace⟩
termination_by cs _ _ _ _ _ _ => sizeOf cs
decreasing_by
  all_goals simp_wf
  all_goals split
  all_goals try rw [WTree.sizeOf_set_dirty]
  all_goals omega

end

/-! ### Association-list map lemmas (the `BTreeMap` model) -/

theorem mapLookup_eq_none (k : Nat) (l : List (Nat × List RenderInstruction))
    (h : ∀ p ∈ l, p.1 ≠ k) : mapLookup k l = none := by
  induction l with
  | nil => rfl
  | cons hd tl ih =>
    have hk := h hd (List.mem_cons_self hd tl)
    simp only [mapLookup]
    rw [if_neg (fun he => hk he.symm)]
    exact ih fun p hp => h p (List.mem_cons_of_mem hd hp)

theorem mapRemove_of_lookup_none (k : Nat) (l : List (Nat × List RenderInstruction))
    (h : mapLookup k l = none) : mapRemove k l = l := by
  induction l with
  | nil => rfl
  | cons hd tl ih =>
    simp only [mapLookup] at h
    by_cases he : k = hd.1
    · rw [if_pos he] at h
      exact absurd h (by simp)
    · rw [if_neg he] at h
      simp only [mapRemove]
      rw [if_neg he, ih h]

theorem mapLookup_mapRemove_self (k : Nat) (l : List (Nat × List RenderInstruction))
    (hs : List.Pairwise (fun a b => a.1 < b.1) l) :
    mapLookup k (mapRemove k l) = none := by
  induction l with
  | nil => rfl
  | cons hd tl ih =>
    rw [List.pairwise_cons] at hs
    simp only [mapRemove]
    by_cases he : k = hd.1
    · rw [if_pos he]
      exact mapLookup_eq_none k tl fun p hp => Nat.ne_of_gt (he ▸ hs.1 p hp)
    · rw [if_neg he]
      simp only [mapLookup]
      rw [if_neg he]
      exact ih hs.2

theorem mapLookup_mapRemove_ne (k k' : Nat) (l : List (Nat × List RenderInstruction))
    (h : k ≠ k') : mapLookup k (mapRemove k' l) = mapLookup k l := by
  induction l with
  | nil => rfl
  | cons hd tl ih =>
    simp only [mapRemove, mapLookup]
    by_cases he : k' = hd.1
    · rw [if_pos he, if_neg (he ▸ h)]
    · rw [if_neg he]
      simp only [mapLookup]
      by_cases hk : k = hd.1
      · rw [if_pos hk, if_pos hk]
      · rw [if_neg hk, if_neg hk, ih]

theorem mapLookup_mapInsert_self (k : Nat) (v : List RenderInstruction)
    (l : List (Nat × List RenderInstruction)) :
    mapLookup k (mapInsert k v l) = some v := by
  induction l with
  | nil => simp [mapInsert, mapLookup]
  | cons hd tl ih =>
    simp only [mapInsert]
    by_cases hlt : k < hd.1
    · rw [if_pos hlt]; simp [mapLookup]
    · rw [if_neg hlt]
      by_cases he : k = hd.1
      · rw [if_pos he]; simp [mapLookup]
      · rw [if_neg he]
        simp only [mapLookup]
        rw [if_neg he]
        exact ih

theorem mapLookup_mapInsert_ne (k k' : Nat) (v : List RenderInstruction)
    (l : List (Nat × List RenderInstruction)) (h : k ≠ k') :
    mapLookup k (mapInsert k' v l) = mapLookup k l := by
  induction l with
  | nil => simp only [mapInsert, mapLookup]; rw [if_neg h]
  | cons hd tl ih =>
    simp only [mapInsert]
    by_cases hlt : k' < hd.1
    · rw [if_pos hlt]
      simp only [mapLookup]
      rw [if_neg h]
    · rw [if_neg hlt]
      by_cases he : k' = hd.1
      · rw [if_pos he]
        simp only [mapLookup]
        rw [if_neg h, if_neg (he ▸ h)]
      · rw [if_neg he]
        simp only [mapLookup]
        by_cases hk : k = hd.1
        · rw [if_pos hk, if_pos hk]
        · rw [if_neg hk, if_neg hk, ih]

/-! ### IDMachine iteration and the absolute widget collection -/

/-- State of an `IDMachine` after `n` `fetch_id` calls starting from `IDMachine::new`. -/
def fetchN : Nat → IDMachine
  | 0 => IDMachine.new
  | n + 1 => ((fetchN n).fetch_id).2

/-- The value returned by the `n`-th `fetch_id` call on a machine created by
`IDMachine::new` (`fetch_id` returns the just-incremented counter, so this is the
machine's state after `n` calls). -/
def issuedId (n : Nat) : Nat := (fetchN n).id

theorem issuedId_eq_mod (n : Nat) : issuedId n = n % USIZE := by
  induction n with
  | zero => simp [issuedId, fetchN, IDMachine.new]
  | succ n ih =>
    simp only [issuedId, fetchN, IDMachine.fetch_id] at *
    rw [ih, Nat.add_mod n 1 USIZE, Nat.mod_eq_of_lt (a := 1) (by norm_num [USIZE])]

/-- `renderer.rs`: `struct AbsoluteWidgetCollection { counter: usize, widgets:
HashMap<usize, (Weak<RefCell<dyn Widget>>, Vector2D, Vector2D)> }`; the `HashMap`
is modelled as an association list (its iteration order is unspecified). -/
structure AbsoluteWidgetCollection where
  counter : Nat
  widgets : List (Nat × (Option WTree × Vector2D × Vector2D))

/-- `AbsoluteWidgetCollection::new`: the counter starts at `usize::MAX`. -/
def AbsoluteWidgetCollection.new : AbsoluteWidgetCollection := ⟨USIZE - 1, []⟩

/-- `AbsoluteWidgetCollection::insert`: if the weak pointer upgrades, assign the
widget the current `counter` as its id, store `(widget, position, size)` under
that key, and decrement the counter (wrapping `usize` subtraction). -/
def AbsoluteWidgetCollection.insert (col : AbsoluteWidgetCollection)
    (widgetPtr : Option WTree) (position size : Vector2D) : AbsoluteWidgetCollection :=
  match widgetPtr with
  | some w =>
    ⟨(col.counter + (USIZE - 1)) % USIZE,
     (col.counter, (some (w.set_id col.counter), position, size)) :: col.widgets⟩
  | none => col

/-- `AbsoluteWidgetCollection::remove`: `self.widgets.remove(&id)`. -/
def AbsoluteWidgetCollection.remove (col : AbsoluteWidgetCollection) (id : Nat) :
    AbsoluteWidgetCollection :=
  ⟨col.counter, col.widgets.filter (fun p => p.1 != id)⟩

/-- A minimal resolvable widget, used only to iterate `insert`. -/
def dummyWidget : WTree := .mk 0 false ⟨0, 0⟩ ⟨0, 0⟩ .horizontal ⟨0, 0⟩ (fun _ _ => []) []

/-- State of an `AbsoluteWidgetCollection` after `k` resolvable `insert`s. -/
def awcAfter : Nat → AbsoluteWidgetCollection
  | 0 => AbsoluteWidgetCollection.new
  | k + 1 => (awcAfter k).insert (some dummyWidget) ⟨0, 0⟩ ⟨0, 0⟩

/-- The key assigned by the `(k+1)`-st `insert` (the counter value the entry and
the widget id are set to). -/
def overlayKey (k : Nat) : Nat := (awcAfter k).counter

theorem overlayKey_eq (k : Nat) (hk : k ≤ USIZE - 1) : overlayKey k = USIZE - 1 - k := by
  have h2 : 2 ≤ USIZE := by norm_num [USIZE]
  induction k with
  | zero => rfl
  | succ k ih =>
    have hk' : k ≤ USIZE - 1 := by omega
    show ((awcAfter k).counter + (USIZE - 1)) % USIZE = USIZE - 1 - (k + 1)
    have hc : (awcAfter k).counter = USIZE - 1 - k := ih hk'
    rw [hc, Nat.mod_eq_sub_mod (by omega), Nat.mod_eq_of_lt (by omega)]
    omega

/-- C6 counterexample: the `fetch_id` counter is a wrapping `usize`; the
`(usize::MAX)`-th call returns `usize::MAX` and the call after it wraps around to
0, which is not greater than the previously returned values. -/
theorem fetch_id_not_strictly_increasing_unbounded :
    issuedId (USIZE - 1) = USIZE - 1 ∧ issuedId USIZE = 0 ∧
    ¬ issuedId (USIZE - 1) < issuedId USIZE := by
  have h2 : 2 ≤ USIZE := by norm_num [USIZE]
  have h1 : issuedId (USIZE - 1) = USIZE - 1 := by
    rw [issuedId_eq_mod]; exact Nat.mod_eq_of_lt (by omega)
  have h0 : issuedId USIZE = 0 := by rw [issuedId_eq_mod]; exact Nat.mod_self USIZE
  exact ⟨h1, h0, by omega⟩

/-- C6 (amended): for a sequence of at most `usize::MAX` `fetch_id` calls on one
`IDMachine`, each returned value is strictly greater than all previously returned
values. -/
theorem fetch_id_strictly_increasing_bounded (i j : Nat) (hij : i < j)
    (hj : j ≤ USIZE - 1) : issuedId i < issuedId j := by
  have h2 : 2 ≤ USIZE := by norm_num [USIZE]
  rw [issuedId_eq_mod, issuedId_eq_mod, Nat.mod_eq_of_lt (by omega),
    Nat.mod_eq_of_lt (by omega)]
  exact hij

/-- Witness for C6 (amended): the first two issued ids are 1 < 2. -/
theorem fetch_id_strictly_increasing_bounded_witness : issuedId 1 < issuedId 2 :=
  fetch_id_strictly_increasing_bounded 1 2 (by norm_num) (by norm_num [USIZE])

/-- C5 counterexample: the very first `AbsoluteWidgetCollection::insert` assigns
key `usize::MAX`, and the `IDMachine` legitimately issues `usize::MAX` itself on
its `(usize::MAX)`-th call, so overlay keys are not strictly greater than every
id the machine can issue. -/
theorem overlay_key_not_above_all_issued_ids :
    overlayKey 0 = USIZE - 1 ∧ issuedId (USIZE - 1) = USIZE - 1 ∧
    ¬ issuedId (USIZE - 1) < overlayKey 0 := by
  have h2 : 2 ≤ USIZE := by norm_num [USIZE]
  have h1 : issuedId (USIZE - 1) = USIZE - 1 := by
    rw [issuedId_eq_mod]; exact Nat.mod_eq_of_lt (by omega)
  exact ⟨rfl, h1, by rw [h1, show overlayKey 0 = USIZE - 1 from rfl]; omega⟩

/-- C5 (amended): as long as the number of ids issued by the `IDMachine` plus
the number of overlay inserts does not exceed `usize::MAX`, every key assigned by
`AbsoluteWidgetCollection::insert` is strictly greater than every issued id, and
in any collection with the `BTreeMap` sorted-key invariant holding both entries,
ascending-key iteration yields the normal-tree entry before the overlay entry. -/
theorem overlay_keys_above_issued_ids_bounded (n m i j : Nat)
    (hb : n + m ≤ USIZE - 1) (hi : i ≤ n) (hj : j < m) :
    issuedId i < overlayKey j ∧
    ∀ (c : RenderInstructionCollection),
      List.Pairwise (fun a b => a.1 < b.1) c.pairs →
      ∀ (ia ib : Fin c.pairs.length), (c.pairs.get ia).1 = issuedId i →
        (c.pairs.get ib).1 = overlayKey j → (ia : Nat) < (ib : Nat) := by
  have h2 : 2 ≤ USIZE := by norm_num [USIZE]
  have hkey : issuedId i < overlayKey j := by
    rw [issuedId_eq_mod, Nat.mod_eq_of_lt (by omega), overlayKey_eq j (by omega)]
    omega
  refine ⟨hkey, fun c hs ia ib ha hb' => ?_⟩
  by_contra hab
  rcases Nat.lt_or_ge (ib : Nat) (ia : Nat) with hlt | hge
  · have := (List.pairwise_iff_get.mp hs) ib ia hlt
    rw [ha, hb'] at this
    omega
  · have : (ia : Nat) = (ib : Nat) := by omega
    have he : c.pairs.get ia = c.pairs.get ib := congrArg c.pairs.get (Fin.ext this)
    rw [← ha, ← hb', he] at hkey
    omega

/-- Witness for C5 (amended): with one issued id and one insert, id 1 is below
the first overlay key. -/
theorem overlay_keys_above_issued_ids_bounded_witness : issuedId 1 < overlayKey 0 :=
  (overlay_keys_above_issued_ids_bounded 1 1 1 0 (by norm_num [USIZE]) (by norm_num)
    (by norm_num)).1

/-! ### Events and the button widget (`event.rs`, `widget/button_view.rs`) -/

/-- `event.rs`: `ModifiersState`. -/
structure ModifiersState where
  shift : Bool
  control : Bool
  alt : Bool
  logo : Bool
deriving DecidableEq

/-- `event.rs`: `Keyboard`; the key codes enumerated in `key_code.rs` are
modelled by their discriminant. -/
inductive Keyboard where
  | keyPressed (keyCode : Nat) (modifiers : ModifiersState)
  | keyReleased (keyCode : Nat) (modifiers : ModifiersState)
  | modifiersChanged (modifiers : ModifiersState)
deriving DecidableEq

/-- `event.rs`: `MouseButton` (`Other` carries a `u8`). -/
inductive MouseButton where
  | left
  | right
  | middle
  | other (code : Nat)
deriving DecidableEq

/-- `event.rs`: `ScrollDelta` (`f64` pixel deltas, modelled as rationals). -/
inductive ScrollDelta where
  | pixels (x y : ℚ)
deriving DecidableEq

/-- `event.rs`: `Mouse` (`CursorMoved` carries `usize` coordinates). -/
inductive Mouse where
  | buttonPressed (button : MouseButton)
  | buttonReleased (button : MouseButton)
  | cursorEntered
  | cursorLeft
  | cursorMoved (x y : Nat)
  | wheelScrolled (delta : ScrollDelta)
deriving DecidableEq

/-- `event.rs`: `Window` (`u32` dimensions). -/
inductive Window where
  | resized (width height : Nat)
deriving DecidableEq

/-- `event.rs`: `Event`. -/
inductive Event where
  | keyboard (k : Keyboard)
  | mouse (m : Mouse)
  | window (w : Window)
deriving DecidableEq

/-- A `Box<dyn Message>`: user-defined, clonable, carrying the triggering event
via `set_event`; modelled as an opaque tag plus the attached event. -/
structure BoxedMessage where
  tag : Nat
  event : Option Event
deriving DecidableEq

/-- `Message::set_event`. -/
def BoxedMessage.set_event (msg : BoxedMessage) (e : Event) : BoxedMessage :=
  ⟨msg.tag, some e⟩

/-- `util.rs`: `Queue<T> { queue: Vec<T> }`. -/
structure Queue (T : Type) where
  queue : List T

/-- `Queue::enqueue`: `self.queue.push(item)`. -/
def Queue.enqueue {T : Type} (q : Queue T) (item : T) : Queue T :=
  ⟨q.queue ++ [item]⟩

/-- The newer revision's `Vector2D` has `f64` components (that revision's
`util.rs` is not part of this snapshot; modelled from the spec: "Vector2D —
floating-point (x, y)"). Coordinates are modelled as rationals: the only
operations the button performs on them are order comparisons and the additions
in `is_cursor_inside`. -/
structure Vector2Df where
  x : ℚ
  y : ℚ
deriving DecidableEq

/-- `button_view.rs`: `const ON_LONG_PRESS_TIME: u128 = 500;` (milliseconds). -/
def ON_LONG_PRESS_TIME : Nat := 500

/-- `widget/button_view.rs`: the state that `on_event` and `is_cursor_inside`
read or write. Children are recorded by whether their weak reference resolves
(`childAlive`); `click_time: Instant` is kept out of the pure state — the
milliseconds elapsed since the press (`click_time.elapsed().as_millis()`) are an
explicit argument of `on_event`. -/
structure ButtonViewWidget where
  id : Nat
  is_clickable : Bool
  on_press : Option BoxedMessage
  on_long_press : Option BoxedMessage
  is_pressed : Bool
  cursor_pos : Vector2Df
  dirty : Bool
  childAlive : List Bool
  position : Vector2Df
  size : Vector2Df
deriving DecidableEq

/-- `ButtonViewWidget::is_cursor_inside` (`button_view.rs:266-276`). -/
def ButtonViewWidget.is_cursor_inside (b : ButtonViewWidget)
    (cursor_pos : Vector2Df) : Bool :=
  if cursor_pos.x ≥ b.position.x ∧ cursor_pos.x ≤ b.position.x + b.size.x ∧
      cursor_pos.y ≥ b.position.y ∧ cursor_pos.y ≤ b.position.y + b.size.y then
    true
  else
    false

/-- `ButtonViewWidget::on_event` (`button_view.rs:118-169`) as a pure function.
The third result component is the event the children loop broadcasts: `some e`
when the branch runs `for value in self.children { if let Some(child) =
value.upgrade() { child.on_event(e, messages) } }`, `none` when it does not. -/
def ButtonViewWidget.on_event (b : ButtonViewWidget) (event : Event)
    (elapsedMillis : Nat) (messages : Queue BoxedMessage) :
    ButtonViewWidget × Queue BoxedMessage × Option Event :=
  match event with
  | .mouse (.cursorMoved x y) =>
    ({ b with cursor_pos := ⟨(x : ℚ), (y : ℚ)⟩ }, messages, some event)
  | .mouse (.buttonPressed .left) =>
    if b.is_clickable ∧ (b.on_press.isSome ∨ b.on_long_press.isSome) then
      if b.is_cursor_inside b.cursor_pos then
        ({ b with is_pressed := true }, messages, none)
      else
        (b, messages, none)
    else
      (b, messages, none)
  | .mouse (.buttonReleased .left) =>
    if b.is_pressed then
      let b1 := { b with is_pressed := false }
      if b1.is_cursor_inside b1.cursor_pos then
        if elapsedMillis < ON_LONG_PRESS_TIME then
          match b1.on_press with
          | some msg => (b1, messages.enqueue (msg.set_event event), none)
          | none => (b1, messages, none)
        else
          match b1.on_long_press with
          | some msg => (b1, messages.enqueue (msg.set_event event), none)
          | none => (b1, messages, none)
      else
        (b1, messages, none)
    else
      (b, messages, none)
  | _ => (b, messages, some event)

/-- What each child receives from the forwarding loop: the broadcast event for
each resolvable child, nothing for the others. -/
def deliveredEvents (childAlive : List Bool) (broadcast : Option Event) :
    List (Option Event) :=
  match broadcast with
  | none => childAlive.map fun _ => none
  | some e => childAlive.map fun alive => if alive then some e else none

/-- A concrete clickable button whose cursor position is outside its bounds. -/
def buttonOutside : ButtonViewWidget :=
  { id := 0, is_clickable := true, on_press := some ⟨0, none⟩, on_long_press := none,
    is_pressed := false, cursor_pos := ⟨50, 50⟩, dirty := true, childAlive := [true],
    position := ⟨0, 0⟩, size := ⟨10, 10⟩ }

theorem is_cursor_inside_cond (b : ButtonViewWidget) (p : Vector2Df) :
    b.is_cursor_inside p = true ↔
      (p.x ≥ b.position.x ∧ p.x ≤ b.position.x + b.size.x ∧
       p.y ≥ b.position.y ∧ p.y ≤ b.position.y + b.size.y) := by
  by_cases hc : p.x ≥ b.position.x ∧ p.x ≤ b.position.x + b.size.x ∧
      p.y ≥ b.position.y ∧ p.y ≤ b.position.y + b.size.y
  · rw [ButtonViewWidget.is_cursor_inside, if_pos hc]
    simp [hc]
  · rw [ButtonViewWidget.is_cursor_inside, if_neg hc]
    simp [hc]

theorem buttonOutside_cursor_outside :
    buttonOutside.is_cursor_inside buttonOutside.cursor_pos = false := by
  rw [← Bool.not_eq_true, is_cursor_inside_cond]
  norm_num [buttonOutside]

/-- C7 counterexample: a `ButtonViewWidget` receiving `ButtonPressed(Left)` with
the cursor outside its bounds does not forward the event to its resolvable
children — the left press/release arms never run the forwarding loop. -/
theorem button_left_press_outside_not_forwarded :
    ¬ ∀ (b : ButtonViewWidget) (e : Event) (t : Nat) (q : Queue BoxedMessage),
        (e = Event.mouse (Mouse.buttonPressed MouseButton.left) ∨
         e = Event.mouse (Mouse.buttonReleased MouseButton.left)) →
        b.is_cursor_inside b.cursor_pos = false →
        (b.on_event e t q).2.2 = some e := by
  intro h
  have hx := h buttonOutside (Event.mouse (Mouse.buttonPressed MouseButton.left)) 0 ⟨[]⟩
    (Or.inl rfl) buttonOutside_cursor_outside
  rw [show (buttonOutside.on_event (Event.mouse (Mouse.buttonPressed MouseButton.left)) 0
    ⟨[]⟩).2.2 = none from ?_] at hx
  · exact absurd hx (by simp)
  · simp only [ButtonViewWidget.on_event]
    repeat' split
    all_goals rfl

/-- C7 (amended): `ButtonViewWidget::on_event` never forwards `Mouse
ButtonPressed(Left)` or `ButtonReleased(Left)` to its children — those events are
consumed locally regardless of the hit-test — and forwards every other event
unchanged to every resolvable child. -/
theorem button_forwarding_behavior (b : ButtonViewWidget) (e : Event) (t : Nat)
    (q : Queue BoxedMessage) :
    ((e = Event.mouse (Mouse.buttonPressed MouseButton.left) ∨
      e = Event.mouse (Mouse.buttonReleased MouseButton.left)) →
      (b.on_event e t q).2.2 = none ∧
      deliveredEvents b.childAlive (b.on_event e t q).2.2 =
        b.childAlive.map fun _ => none) ∧
    ((e ≠ Event.mouse (Mouse.buttonPressed MouseButton.left) ∧
      e ≠ Event.mouse (Mouse.buttonReleased MouseButton.left)) →
      (b.on_event e t q).2.2 = some e ∧
      deliveredEvents b.childAlive (b.on_event e t q).2.2 =
        b.childAlive.map fun alive => if alive then some e else none) := by
  constructor
  · intro he
    have hn : (b.on_event e t q).2.2 = none := by
      rcases he with rfl | rfl
      · simp only [ButtonViewWidget.on_event]
        repeat' split
        all_goals rfl
      · simp only [ButtonViewWidget.on_event]
        repeat' split
        all_goals rfl
    exact ⟨hn, by rw [hn]; rfl⟩
  · rintro ⟨h1, h2⟩
    have hs : (b.on_event e t q).2.2 = some e := by
      cases e with
      | keyboard k => rfl
      | window w => rfl
      | mouse m =>
        cases m with
        | buttonPressed btn =>
          cases btn with
          | left => exact absurd rfl h1
          | right => rfl
          | middle => rfl
          | other code => rfl
        | buttonReleased btn =>
          cases btn with
          | left => exact absurd rfl h2
          | right => rfl
          | middle => rfl
          | other code => rfl
        | cursorEntered => rfl
        | cursorLeft => rfl
        | cursorMoved x y => rfl
        | wheelScrolled delta => rfl
    exact ⟨hs, by rw [hs]; rfl⟩

/-- Witness for C7 (amended): a left press broadcasts nothing; `CursorEntered`
is broadcast to the resolvable child. -/
theorem button_forwarding_behavior_witness :
    (buttonOutside.on_event (Event.mouse (Mouse.buttonPressed MouseButton.left)) 0
      ⟨[]⟩).2.2 = none ∧
    (buttonOutside.on_event (Event.mouse Mouse.cursorEntered) 0 ⟨[]⟩).2.2 =
      some (Event.mouse Mouse.cursorEntered) :=
  ⟨((button_forwarding_behavior buttonOutside
      (Event.mouse (Mouse.buttonPressed MouseButton.left)) 0 ⟨[]⟩).1
      (Or.inl rfl)).1,
   ((button_forwarding_behavior buttonOutside (Event.mouse Mouse.cursorEntered) 0
      ⟨[]⟩).2 ⟨by decide, by decide⟩).1⟩

/-- A concrete button at position (10,10) with size (20,20). -/
def buttonAt1010 : ButtonViewWidget :=
  { id := 0, is_clickable := true, on_press := none, on_long_press := none,
    is_pressed := false, cursor_pos := ⟨0, 0⟩, dirty := true, childAlive := [],
    position := ⟨10, 10⟩, size := ⟨20, 20⟩ }

/-- C9: `is_cursor_inside` is the axis-aligned bounding-box test, inclusive on
both edges; in particular at position (10,10) with size (20,20), the points
(10,10) and (30,30) are inside while (9,10) and (31,10) are not. -/
theorem is_cursor_inside_iff_bbox :
    (∀ (b : ButtonViewWidget) (p : Vector2Df),
      b.is_cursor_inside p = true ↔
        (b.position.x ≤ p.x ∧ p.x ≤ b.position.x + b.size.x ∧
         b.position.y ≤ p.y ∧ p.y ≤ b.position.y + b.size.y)) ∧
    buttonAt1010.is_cursor_inside ⟨10, 10⟩ = true ∧
    buttonAt1010.is_cursor_inside ⟨30, 30⟩ = true ∧
    buttonAt1010.is_cursor_inside ⟨9, 10⟩ = false ∧
    buttonAt1010.is_cursor_inside ⟨31, 10⟩ = false := by
  refine ⟨fun b p => ?_, ?_, ?_, ?_, ?_⟩
  · rw [is_cursor_inside_cond]
  · rw [is_cursor_inside_cond]
    norm_num [buttonAt1010]
  · rw [is_cursor_inside_cond]
    norm_num [buttonAt1010]
  · rw [← Bool.not_eq_true, is_cursor_inside_cond]
    norm_num [buttonAt1010]
  · rw [← Bool.not_eq_true, is_cursor_inside_cond]
    norm_num [buttonAt1010]

/-- Witness for C9: the corner point (10,10) is inside. -/
theorem is_cursor_inside_iff_bbox_witness :
    buttonAt1010.is_cursor_inside ⟨10, 10⟩ = true :=
  is_cursor_inside_iff_bbox.2.1

/-- C8: `RenderInstructionCollection::remove(id)` and `replace_or_insert(id,
instructions)` never fail (they are total functions here): `remove` on an absent
key — never inserted, or already removed, granted the `BTreeMap` strictly-sorted
key invariant — is a no-op leaving the collection unchanged, and
`replace_or_insert` makes the entry for the key hold exactly the given
instructions whether the key existed (overwrite) or not (create). -/
theorem collection_remove_noop_replace_or_insert_total :
    (∀ (c : RenderInstructionCollection) (id : Nat),
      c.lookup id = none → c.remove id = c) ∧
    (∀ (c : RenderInstructionCollection) (id : Nat),
      List.Pairwise (fun a b => a.1 < b.1) c.pairs →
      (c.remove id).remove id = c.remove id) ∧
    (∀ (c : RenderInstructionCollection) (id : Nat) (instructions : List RenderInstruction),
      (c.replace_or_insert id instructions).lookup id = some instructions) := by
  refine ⟨fun c id h => ?_, fun c id hs => ?_, fun c id ins => ?_⟩
  · show RenderInstructionCollection.mk (mapRemove id c.pairs) = c
    rw [mapRemove_of_lookup_none id c.pairs h]
  · show RenderInstructionCollection.mk (mapRemove id (mapRemove id c.pairs)) =
      RenderInstructionCollection.mk (mapRemove id c.pairs)
    rw [mapRemove_of_lookup_none id (mapRemove id c.pairs)
      (mapLookup_mapRemove_self id c.pairs hs)]
  · exact mapLookup_mapInsert_self id ins c.pairs

/-- Witness for C8 at a concrete collection. -/
theorem collection_remove_noop_replace_or_insert_total_witness :
    (RenderInstructionCollection.mk [(2, [])]).remove 7 =
      RenderInstructionCollection.mk [(2, [])] ∧
    ((RenderInstructionCollection.mk [(2, []), (5, [])]).remove 2).remove 2 =
      (RenderInstructionCollection.mk [(2, []), (5, [])]).remove 2 ∧
    ((RenderInstructionCollection.mk [(2, [])]).replace_or_insert 2
      [RenderInstruction.clear ⟨0, 0, 0, 0⟩]).lookup 2 =
      some [RenderInstruction.clear ⟨0, 0, 0, 0⟩] :=
  ⟨collection_remove_noop_replace_or_insert_total.1 _ 7 (by decide),
   collection_remove_noop_replace_or_insert_total.2.1 _ 2 (by decide),
   collection_remove_noop_replace_or_insert_total.2.2 _ 2 _⟩

/-! ### Build-pass lemmas -/

theorem build_clean_fields (i : Nat) (p s : Vector2D) (ax : Axis) (off : Vector2D)
    (r : Vector2D → Vector2D → List RenderInstruction) (cs : List (Option WTree))
    (pos mx : Vector2D) (m : IDMachine) (c : RenderInstructionCollection) :
    ((WTree.mk i false p s ax off r cs).build pos mx m c).widget.id = i ∧
    ((WTree.mk i false p s ax off r cs).build pos mx m c).widget.position = p ∧
    ((WTree.mk i false p s ax off r cs).build pos mx m c).widget.size = s ∧
    ((WTree.mk i false p s ax off r cs).build pos mx m c).widget.dirty = false := by
  simp [WTree.build, WTree.withChildren, WTree.id, WTree.position, WTree.size, WTree.dirty]

theorem build_dirty_fields (i : Nat) (p s : Vector2D) (ax : Axis) (off : Vector2D)
    (r : Vector2D → Vector2D → List RenderInstruction) (cs : List (Option WTree))
    (pos mx : Vector2D) (m : IDMachine) (c : RenderInstructionCollection) :
    ((WTree.mk i true p s ax off r cs).build pos mx m c).widget.id = (m.fetch_id).1 ∧
    ((WTree.mk i true p s ax off r cs).build pos mx m c).widget.position = pos ∧
    ((WTree.mk i true p s ax off r cs).build pos mx m c).widget.size = mx ∧
    ((WTree.mk i true p s ax off r cs).build pos mx m c).widget.dirty = false := by
  simp [WTree.build, WTree.withChildren, WTree.id, WTree.position, WTree.size, WTree.dirty,
    WTree.set_position, WTree.set_size, WTree.set_id, WTree.set_dirty, IDMachine.fetch_id]

theorem build_widget_dirty_false (t : WTree) (pos mx : Vector2D) (m : IDMachine)
    (c : RenderInstructionCollection) : (t.build pos mx m c).widget.dirty = false := by
  cases t with
  | mk i d p s ax off r cs =>
    cases d
    · exact (build_clean_fields i p s ax off r cs pos mx m c).2.2.2
    · exact (build_dirty_fields i p s ax off r cs pos mx m c).2.2.2

theorem build_dirty_position (t : WTree) (h : t.dirty = true) (pos mx : Vector2D)
    (m : IDMachine) (c : RenderInstructionCollection) :
    (t.build pos mx m c).widget.position = pos := by
  cases t with
  | mk i d p s ax off r cs =>
    rw [show d = true from h]
    exact (build_dirty_fields i p s ax off r cs pos mx m c).2.1

theorem set_dirty_of_dirty (t : WTree) (h : t.dirty = true) : t.set_dirty true = t := by
  cases t with
  | mk i d p s ax off r cs =>
    rw [show d = true from h]
    rfl

theorem build_trace_eq_loop (i : Nat) (d : Bool) (p s : Vector2D) (ax : Axis)
    (off : Vector2D) (r : Vector2D → Vector2D → List RenderInstruction)
    (cs : List (Option WTree)) (pos mx : Vector2D) (m : IDMachine)
    (c : RenderInstructionCollection) :
    ∃ m' c', ((WTree.mk i d p s ax off r cs).build pos mx m c).trace =
      (buildChildren cs (pos.add off) (mx.sub (off.mulScalar 2)) ax false m' c').trace ∧
    ((WTree.mk i d p s ax off r cs).build pos mx m c).widget.children =
      (buildChildren cs (pos.add off) (mx.sub (off.mulScalar 2)) ax false m' c').children := by
  cases d
  · exact ⟨m, c, by simp [WTree.build, WTree.withChildren, WTree.children],
      by simp [WTree.build, WTree.withChildren, WTree.children]⟩
  · refine ⟨(m.fetch_id).2, (c.remove i).replace_or_insert (m.fetch_id).1 (r pos mx), ?_, ?_⟩ <;>
      simp [WTree.build, WTree.withChildren, WTree.children, WTree.set_position,
        WTree.set_size, WTree.set_id, WTree.set_dirty, WTree.id, WTree.recipe,
        WTree.position, WTree.size]

theorem loop_trace_clamped (cs : List (Option WTree)) :
    ∀ (pos mx : Vector2D) (ax : Axis) (cd : Bool) (m : IDMachine)
      (c : RenderInstructionCollection) (oc : Option ChildCall),
      oc ∈ (buildChildren cs pos mx ax cd m c).trace →
      ∀ cc, oc = some cc → cc.passedSize = cc.origSize.min cc.availMax := by
  induction cs with
  | nil =>
    intro pos mx ax cd m c oc hmem
    simp [buildChildren] at hmem
  | cons hd tl ih =>
    intro pos mx ax cd m c oc hmem cc hcc
    cases hd with
    | none =>
      simp only [buildChildren] at hmem
      rcases List.mem_cons.mp hmem with h | h
      · exact absurd (h ▸ hcc) (by simp)
      · exact ih _ _ _ _ _ _ _ h cc hcc
    | some ch =>
      simp only [buildChildren] at hmem
      rcases List.mem_cons.mp hmem with h | h
      · subst hcc
        cases Option.some.injEq .. ▸ h with
        | refl => rfl
      · exact ih _ _ _ _ _ _ _ h cc hcc

/-- C1: in a Box-layout parent's build pass, every resolvable child is passed
exactly the component-wise minimum (`Vector2D::min`) of the size it reports and
the remaining available space. -/
theorem build_passes_clamped_child_size (w : WTree) (position mx : Vector2D)
    (m : IDMachine) (c : RenderInstructionCollection) (oc : Option ChildCall)
    (hmem : oc ∈ (w.build position mx m c).trace) (cc : ChildCall)
    (he : oc = some cc) : cc.passedSize = cc.origSize.min cc.availMax := by
  cases w with
  | mk i d p s ax off r cs =>
    obtain ⟨m', c', htr, -⟩ := build_trace_eq_loop i d p s ax off r cs position mx m c
    rw [htr] at hmem
    exact loop_trace_clamped cs _ _ _ _ _ _ oc hmem cc he

/-- A concrete dirty leaf child of size (30,20). -/
def wLeaf : WTree := .mk 0 true ⟨0, 0⟩ ⟨30, 20⟩ .horizontal ⟨0, 0⟩ (fun _ _ => []) []

/-- A concrete dirty parent of size (100,50) with `wLeaf` as its only child. -/
def wParent : WTree :=
  .mk 0 true ⟨0, 0⟩ ⟨100, 50⟩ .horizontal ⟨0, 0⟩ (fun _ _ => []) [some wLeaf]

/-- The loop observation for `wLeaf` inside `wParent`'s build. -/
def witCall : ChildCall := ⟨false, ⟨30, 20⟩, ⟨100, 50⟩, ⟨0, 0⟩, ⟨30, 20⟩⟩

/-- Witness for C1 at the concrete parent and child. -/
theorem build_passes_clamped_child_size_witness :
    some witCall ∈ (wParent.build ⟨0, 0⟩ ⟨100, 50⟩ ⟨0⟩ ⟨[]⟩).trace ∧
    witCall.passedSize = witCall.origSize.min witCall.availMax := by
  have hmem : some witCall ∈ (wParent.build ⟨0, 0⟩ ⟨100, 50⟩ ⟨0⟩ ⟨[]⟩).trace := by
    simp [wParent, wLeaf, witCall, WTree.build, buildChildren, WTree.set_dirty,
      WTree.set_position, WTree.set_size, WTree.set_id, WTree.dirty, WTree.size,
      Vector2D.min, Vector2D.add, Vector2D.sub, Vector2D.mulScalar]
  exact ⟨hmem,
    build_passes_clamped_child_size wParent ⟨0, 0⟩ ⟨100, 50⟩ ⟨0⟩ ⟨[]⟩ (some witCall) hmem
      witCall rfl⟩

/-- C2 counterexample: a dirty widget with nonzero id 5 does not keep that id —
`build` unconditionally fetches a fresh id (here 1) for every dirty widget. -/
theorem build_dirty_nonzero_id_not_kept :
    (WTree.mk 5 true ⟨0, 0⟩ ⟨10, 10⟩ Axis.horizontal ⟨0, 0⟩ (fun _ _ => []) []).dirty
        = true ∧
    (WTree.mk 5 true ⟨0, 0⟩ ⟨10, 10⟩ Axis.horizontal ⟨0, 0⟩ (fun _ _ => []) []).id = 5 ∧
    ((WTree.mk 5 true ⟨0, 0⟩ ⟨10, 10⟩ Axis.horizontal ⟨0, 0⟩ (fun _ _ => []) []).build
        ⟨0, 0⟩ ⟨20, 20⟩ ⟨0⟩ ⟨[]⟩).widget.id = 1 ∧
    ¬ ((WTree.mk 5 true ⟨0, 0⟩ ⟨10, 10⟩ Axis.horizontal ⟨0, 0⟩ (fun _ _ => []) []).build
        ⟨0, 0⟩ ⟨20, 20⟩ ⟨0⟩ ⟨[]⟩).widget.id = 5 := by
  have hid : ((WTree.mk 5 true ⟨0, 0⟩ ⟨10, 10⟩ Axis.horizontal ⟨0, 0⟩ (fun _ _ => []) []).build
      ⟨0, 0⟩ ⟨20, 20⟩ ⟨0⟩ ⟨[]⟩).widget.id = 1 := by
    rw [(build_dirty_fields 5 ⟨0, 0⟩ ⟨10, 10⟩ Axis.horizontal ⟨0, 0⟩ (fun _ _ => []) []
      ⟨0, 0⟩ ⟨20, 20⟩ ⟨0⟩ ⟨[]⟩).1]
    show (0 + 1) % USIZE = 1
    norm_num [USIZE]
  exact ⟨rfl, rfl, hid, by rw [hid]; norm_num⟩

/-- C2 (amended): when `build` runs on a dirty widget it always obtains a fresh
id from the `IDMachine`, whether or not its current id is 0; the stale entry
under the old id is removed and the regenerated recipe is inserted under the
fresh id (stated for a childless widget, so that no descendant touches the
collection afterwards; the collection carries the `BTreeMap` sorted-key
invariant). -/
theorem build_dirty_always_fetches_fresh_id (i : Nat) (p s off : Vector2D) (ax : Axis)
    (r : Vector2D → Vector2D → List RenderInstruction) (position mx : Vector2D)
    (m : IDMachine) (c : RenderInstructionCollection)
    (hsorted : List.Pairwise (fun a b => a.1 < b.1) c.pairs) :
    ((WTree.mk i true p s ax off r []).build position mx m c).widget.id = (m.fetch_id).1 ∧
    ((WTree.mk i true p s ax off r []).build position mx m c).collection.lookup
        (m.fetch_id).1 = some (r position mx) ∧
    ((m.fetch_id).1 ≠ i →
      ((WTree.mk i true p s ax off r []).build position mx m c).collection.lookup i
        = none) := by
  have hcol : ((WTree.mk i true p s ax off r []).build position mx m c).collection =
      (c.remove i).replace_or_insert (m.fetch_id).1 (r position mx) := by
    simp [WTree.build, buildChildren, WTree.set_position, WTree.set_size, WTree.set_id,
      WTree.set_dirty, WTree.id, WTree.recipe, WTree.position, WTree.size]
  refine ⟨(build_dirty_fields i p s ax off r [] position mx m c).1, ?_, fun hne => ?_⟩
  · rw [hcol]
    exact mapLookup_mapInsert_self (m.fetch_id).1 (r position mx) (mapRemove i c.pairs)
  · rw [hcol]
    show mapLookup i (mapInsert (m.fetch_id).1 (r position mx) (mapRemove i c.pairs)) = none
    rw [mapLookup_mapInsert_ne i (m.fetch_id).1 (r position mx) (mapRemove i c.pairs)
      (fun h => hne h.symm)]
    exact mapLookup_mapRemove_self i c.pairs hsorted

/-- Witness for C2 (amended) at a concrete dirty widget with id 5. -/
theorem build_dirty_always_fetches_fresh_id_witness :
    ((WTree.mk 5 true ⟨0, 0⟩ ⟨10, 10⟩ Axis.horizontal ⟨0, 0⟩ (fun _ _ => []) []).build
        ⟨0, 0⟩ ⟨20, 20⟩ ⟨0⟩ ⟨[]⟩).widget.id = ((⟨0⟩ : IDMachine).fetch_id).1 ∧
    ((WTree.mk 5 true ⟨0, 0⟩ ⟨10, 10⟩ Axis.horizontal ⟨0, 0⟩ (fun _ _ => []) []).build
        ⟨0, 0⟩ ⟨20, 20⟩ ⟨0⟩ ⟨[]⟩).collection.lookup ((⟨0⟩ : IDMachine).fetch_id).1
      = some [] ∧
    ((WTree.mk 5 true ⟨0, 0⟩ ⟨10, 10⟩ Axis.horizontal ⟨0, 0⟩ (fun _ _ => []) []).build
        ⟨0, 0⟩ ⟨20, 20⟩ ⟨0⟩ ⟨[]⟩).collection.lookup 5 = none := by
  have h := build_dirty_always_fetches_fresh_id 5 ⟨0, 0⟩ ⟨10, 10⟩ ⟨0, 0⟩ Axis.horizontal
    (fun _ _ => []) ⟨0, 0⟩ ⟨20, 20⟩ ⟨0⟩ ⟨[]⟩ (by simp)
  exact ⟨h.1, h.2.1, h.2.2 (by norm_num [IDMachine.fetch_id, USIZE])⟩

theorem loop_forced_true (cs : List (Option WTree)) :
    ∀ (pos mx : Vector2D) (ax : Axis) (m : IDMachine) (c : RenderInstructionCollection)
      (oc : Option ChildCall), oc ∈ (buildChildren cs pos mx ax true m c).trace →
      ∀ cc, oc = some cc → cc.forced = true := by
  induction cs with
  | nil =>
    intro pos mx ax m c oc hmem
    simp [buildChildren] at hmem
  | cons hd tl ih =>
    intro pos mx ax m c oc hmem cc hcc
    cases hd with
    | none =>
      simp only [buildChildren] at hmem
      rcases List.mem_cons.mp hmem with h | h
      · exact absurd (h ▸ hcc) (by simp)
      · exact ih _ _ _ _ _ _ h cc hcc
    | some ch =>
      simp only [buildChildren, if_pos rfl] at hmem
      rcases List.mem_cons.mp hmem with h | h
      · subst hcc
        cases Option.some.injEq .. ▸ h with
        | refl => rfl
      · exact ih _ _ _ _ _ _ h cc hcc

theorem loop_children_clean (cs : List (Option WTree)) :
    ∀ (pos mx : Vector2D) (ax : Axis) (cd : Bool) (m : IDMachine)
      (c : RenderInstructionCollection) (oc : Option WTree),
      oc ∈ (buildChildren cs pos mx ax cd m c).children →
      ∀ t, oc = some t → t.dirty = false := by
  induction cs with
  | nil =>
    intro pos mx ax cd m c oc hmem
    simp [buildChildren] at hmem
  | cons hd tl ih =>
    intro pos mx ax cd m c oc hmem t ht
    cases hd with
    | none =>
      simp only [buildChildren] at hmem
      rcases List.mem_cons.mp hmem with h | h
      · exact absurd (h ▸ ht) (by simp)
      · exact ih _ _ _ _ _ _ _ h t ht
    | some ch =>
      simp only [buildChildren] at hmem
      rcases List.mem_cons.mp hmem with h | h
      · subst ht
        cases Option.some.injEq .. ▸ h with
        | refl => exact build_widget_dirty_false _ _ _ _ _
      · exact ih _ _ _ _ _ _ _ h t ht

theorem loop_trace_drop_forced (ti : WTree) (hdirty : ti.dirty = true)
    (post : List (Option WTree)) (pre : List (Option WTree)) :
    ∀ (pos mx : Vector2D) (ax : Axis) (cd : Bool) (m : IDMachine)
      (c : RenderInstructionCollection) (oc : Option ChildCall),
      oc ∈ ((buildChildren (pre ++ some ti :: post) pos mx ax cd m c).trace.drop
        (pre.length + 1)) →
      ∀ cc, oc = some cc → cc.forced = true := by
  induction pre with
  | nil =>
    intro pos mx ax cd m c oc hmem cc hcc
    rw [List.nil_append] at hmem
    simp only [buildChildren] at hmem
    rw [List.length_nil, Nat.zero_add, List.drop_succ_cons, List.drop_zero] at hmem
    have hcd : (if cd = true then true else ti.dirty) = true := by
      cases cd <;> simp [hdirty]
    rw [hcd] at hmem
    exact loop_forced_true post _ _ _ _ _ oc hmem cc hcc
  | cons hd pre' ih =>
    intro pos mx ax cd m c oc hmem cc hcc
    rw [List.cons_append] at hmem
    cases hd with
    | none =>
      simp only [buildChildren] at hmem
      rw [List.length_cons, List.drop_succ_cons] at hmem
      exact ih _ _ _ _ _ _ oc hmem cc hcc
    | some ch =>
      simp only [buildChildren] at hmem
      rw [List.length_cons, List.drop_succ_cons] at hmem
      exact ih _ _ _ _ _ _ oc hmem cc hcc

/-- C3: in a Box-layout parent whose child list splits as `pre ++ ti :: post`
with `ti` dirty (and the later siblings initially clean), one `build` call
force-marks every later resolvable sibling dirty before recursing into it
(`forced = true` in its trace record) and leaves every one of them reporting
`is_dirty() == false` afterwards. -/
theorem build_box_dirty_propagation (w : WTree) (position mx : Vector2D)
    (m : IDMachine) (c : RenderInstructionCollection) (pre post : List (Option WTree))
    (ti : WTree) (hcs : w.children = pre ++ some ti :: post) (hdirty : ti.dirty = true)
    (_hclean : ∀ oc ∈ post, ∀ t, oc = some t → t.dirty = false) :
    (∀ oc ∈ ((w.build position mx m c).trace.drop (pre.length + 1)), ∀ cc,
        oc = some cc → cc.forced = true) ∧
    (∀ oc ∈ ((w.build position mx m c).widget.children.drop (pre.length + 1)), ∀ t,
        oc = some t → t.dirty = false) := by
  cases w with
  | mk i d p s ax off r cs =>
    rw [WTree.children] at hcs
    subst hcs
    obtain ⟨m', c', htr, hch⟩ :=
      build_trace_eq_loop i d p s ax off r (pre ++ some ti :: post) position mx m c
    constructor
    · intro oc hmem cc hcc
      rw [htr] at hmem
      exact loop_trace_drop_forced ti hdirty post pre _ _ _ _ _ _ oc hmem cc hcc
    · intro oc hmem t ht
      rw [hch] at hmem
      exact loop_children_clean (pre ++ some ti :: post) _ _ _ _ _ _ oc
        (List.drop_subset _ _ hmem) t ht

/-- A concrete clean leaf child with id 7 and size (40,10). -/
def wCleanLeaf : WTree := .mk 7 false ⟨1, 1⟩ ⟨40, 10⟩ .horizontal ⟨0, 0⟩ (fun _ _ => []) []

/-- A concrete dirty parent whose first child is dirty and second child clean. -/
def wParent2 : WTree :=
  .mk 0 true ⟨0, 0⟩ ⟨100, 50⟩ .horizontal ⟨0, 0⟩ (fun _ _ => [])
    [some wLeaf, some wCleanLeaf]

/-- The loop observation for the force-marked second child of `wParent2`. -/
def witCall2 : ChildCall := ⟨true, ⟨40, 10⟩, ⟨70, 50⟩, ⟨30, 0⟩, ⟨40, 10⟩⟩

/-- Witness for C3 at the concrete two-child parent. -/
theorem build_box_dirty_propagation_witness :
    wLeaf.dirty = true ∧ wCleanLeaf.dirty = false ∧
    some witCall2 ∈ ((wParent2.build ⟨0, 0⟩ ⟨100, 50⟩ ⟨0⟩ ⟨[]⟩).trace.drop 1) ∧
    witCall2.forced = true ∧
    some (WTree.mk 3 false ⟨30, 0⟩ ⟨40, 10⟩ .horizontal ⟨0, 0⟩ (fun _ _ => []) []) ∈
      ((wParent2.build ⟨0, 0⟩ ⟨100, 50⟩ ⟨0⟩ ⟨[]⟩).widget.children.drop 1) ∧
    (WTree.mk 3 false ⟨30, 0⟩ ⟨40, 10⟩ .horizontal ⟨0, 0⟩
      (fun _ _ => []) [] : WTree).dirty = false := by
  have hprop := build_box_dirty_propagation wParent2 ⟨0, 0⟩ ⟨100, 50⟩ ⟨0⟩ ⟨[]⟩
    [] [some wCleanLeaf] wLeaf rfl rfl
    (by
      rintro oc hmem t ht
      simp only [List.mem_singleton] at hmem
      subst hmem
      obtain rfl := Option.some.inj ht
      rfl)
  have hmem1 : some witCall2 ∈ ((wParent2.build ⟨0, 0⟩ ⟨100, 50⟩ ⟨0⟩ ⟨[]⟩).trace.drop 1) := by
    simp [wParent2, wLeaf, wCleanLeaf, witCall2, WTree.build, buildChildren, advanceAxis,
      WTree.set_dirty, WTree.set_position, WTree.set_size, WTree.set_id, WTree.dirty,
      WTree.size, WTree.id, WTree.recipe, WTree.position, WTree.withChildren,
      WTree.children, Vector2D.min, Vector2D.add, Vector2D.sub, Vector2D.mulScalar,
      IDMachine.fetch_id, USIZE]
  have hmem2 : some (WTree.mk 3 false ⟨30, 0⟩ ⟨40, 10⟩ .horizontal ⟨0, 0⟩
      (fun _ _ => []) []) ∈
      ((wParent2.build ⟨0, 0⟩ ⟨100, 50⟩ ⟨0⟩ ⟨[]⟩).widget.children.drop 1) := by
    simp [wParent2, wLeaf, wCleanLeaf, WTree.build, buildChildren, advanceAxis,
      WTree.set_dirty, WTree.set_position, WTree.set_size, WTree.set_id, WTree.dirty,
      WTree.size, WTree.id, WTree.recipe, WTree.position, WTree.withChildren,
      WTree.children, Vector2D.min, Vector2D.add, Vector2D.sub, Vector2D.mulScalar,
      IDMachine.fetch_id, USIZE]
  exact ⟨rfl, rfl, hmem1, hprop.1 (some witCall2) hmem1 witCall2 rfl, hmem2,
    hprop.2 _ hmem2 _ rfl⟩

theorem loop_horizontal_positions (ts : List WTree) :
    ∀ (pos mx : Vector2D) (cd : Bool) (m : IDMachine) (c : RenderInstructionCollection),
      (∀ t ∈ ts, t.dirty = true) →
      ((ts.map fun t => t.size.x).sum ≤ mx.x) →
      ∀ k, k < ts.length →
        (((buildChildren (ts.map some) pos mx .horizontal cd m c).trace[k]?).map
            (fun oc => oc.map fun cc => cc.passedPos.x) =
          some (some (pos.x + ((ts.take k).map fun t => t.size.x).sum))) ∧
        (((buildChildren (ts.map some) pos mx .horizontal cd m c).children[k]?).map
            (fun oc => oc.map fun t => t.position.x) =
          some (some (pos.x + ((ts.take k).map fun t => t.size.x).sum))) := by
  induction ts with
  | nil =>
    intro pos mx cd m c hall hsum k hk
    simp at hk
  | cons ch ts' ih =>
    intro pos mx cd m c hall hsum k hk
    have hchd : ch.dirty = true := hall ch (List.mem_cons_self ch ts')
    have hch1 : (if cd = true then ch.set_dirty true else ch) = ch := by
      cases cd
      · rfl
      · simp [set_dirty_of_dirty ch hchd]
    have hx : ch.size.x ≤ mx.x := by
      simp only [List.map_cons, List.sum_cons] at hsum
      omega
    have hcsx : (ch.size.min mx).x = ch.size.x := by
      show Nat.min ch.size.x mx.x = ch.size.x
      exact Nat.min_eq_left hx
    simp only [List.map_cons]
    simp only [buildChildren]
    rw [hch1]
    cases k with
    | zero =>
      constructor
      · simp
      · have hpos := build_dirty_position ch hchd pos (ch.size.min mx) m c
        simp [hpos]
    | succ k' =>
      have hk' : k' < ts'.length := by
        simp only [List.length_cons] at hk
        omega
      have hsum' : (ts'.map fun t => t.size.x).sum ≤
          (Vector2D.mk (mx.x - (ch.size.min mx).x) mx.y).x := by
        show _ ≤ mx.x - (ch.size.min mx).x
        rw [hcsx]
        simp only [List.map_cons, List.sum_cons] at hsum
        omega
      have ihx := ih (Vector2D.mk (pos.x + (ch.size.min mx).x) pos.y)
        (Vector2D.mk (mx.x - (ch.size.min mx).x) mx.y)
        (if cd = true then true else ch.dirty)
        ((ch.build pos (ch.size.min mx) m c).machine)
        ((ch.build pos (ch.size.min mx) m c).collection)
        (fun t ht => hall t (List.mem_cons_of_mem ch ht)) hsum' k' hk'
      simp only [advanceAxis]
      constructor
      · rw [List.getElem?_cons_succ]
        rw [ihx.1, List.take_succ_cons, List.map_cons, List.sum_cons, hcsx]
        congr 2
        exact Nat.add_assoc pos.x ch.size.x _
      · rw [List.getElem?_cons_succ]
        rw [ihx.2, List.take_succ_cons, List.map_cons, List.sum_cons, hcsx]
        congr 2
        exact Nat.add_assoc pos.x ch.size.x _

/-- C4: for a Box(Horizontal) parent built dirty with all-dirty resolvable
children of widths `w1..wn`, when the available width fits every child
(`Σwi + 2·offset.x ≤ max.x`), the x-position passed to and assigned to the k-th
child equals `parent.position.x + offset.x + Σ_{i<k} wi` (the parent itself is
repositioned to the `position` argument). -/
theorem build_box_horizontal_child_positions (i : Nat) (p s off : Vector2D)
    (r : Vector2D → Vector2D → List RenderInstruction) (ts : List WTree)
    (position mx : Vector2D) (m : IDMachine) (c : RenderInstructionCollection)
    (hall : ∀ t ∈ ts, t.dirty = true)
    (hfit : ((ts.map fun t => t.size.x).sum) + 2 * off.x ≤ mx.x) :
    ((WTree.mk i true p s .horizontal off r (ts.map some)).build position mx m
        c).widget.position = position ∧
    ∀ k, k < ts.length →
      ((((WTree.mk i true p s .horizontal off r (ts.map some)).build position mx m
            c).trace[k]?).map (fun oc => oc.map fun cc => cc.passedPos.x) =
        some (some (position.x + off.x + ((ts.take k).map fun t => t.size.x).sum))) ∧
      ((((WTree.mk i true p s .horizontal off r (ts.map some)).build position mx m
            c).widget.children[k]?).map (fun oc => oc.map fun t => t.position.x) =
        some (some (position.x + off.x + ((ts.take k).map fun t => t.size.x).sum))) := by
  obtain ⟨m', c', htr, hch⟩ := build_trace_eq_loop i true p s .horizontal off r
    (ts.map some) position mx m c
  have hsum : (ts.map fun t => t.size.x).sum ≤ (mx.sub (off.mulScalar 2)).x := by
    show _ ≤ mx.x - off.x * 2
    omega
  refine ⟨(build_dirty_fields i p s .horizontal off r (ts.map some) position mx m c).2.1,
    fun k hk => ?_⟩
  have hloop := loop_horizontal_positions ts (position.add off) (mx.sub (off.mulScalar 2))
    false m' c' hall hsum k hk
  have haddx : (position.add off).x = position.x + off.x := rfl
  rw [htr, hch]
  rw [haddx] at hloop
  exact hloop

/-- A concrete dirty leaf of size (40,10). -/
def wLeafB : WTree := .mk 0 true ⟨0, 0⟩ ⟨40, 10⟩ .horizontal ⟨0, 0⟩ (fun _ _ => []) []

/-- A concrete dirty horizontal parent with offset (2,3) and two dirty children. -/
def wParentH : WTree :=
  .mk 0 true ⟨0, 0⟩ ⟨100, 50⟩ .horizontal ⟨2, 3⟩ (fun _ _ => [])
    [some wLeaf, some wLeafB]

/-- Witness for C4: the two children of `wParentH` are passed x-positions
0+2+0 = 2 and 0+2+30 = 32. -/
theorem build_box_horizontal_child_positions_witness :
    (((wParentH.build ⟨0, 0⟩ ⟨100, 50⟩ ⟨0⟩ ⟨[]⟩).trace[0]?).map
        (fun oc => oc.map fun cc => cc.passedPos.x) = some (some 2)) ∧
    (((wParentH.build ⟨0, 0⟩ ⟨100, 50⟩ ⟨0⟩ ⟨[]⟩).trace[1]?).map
        (fun oc => oc.map fun cc => cc.passedPos.x) = some (some 32)) ∧
    (((wParentH.build ⟨0, 0⟩ ⟨100, 50⟩ ⟨0⟩ ⟨[]⟩).widget.children[1]?).map
        (fun oc => oc.map fun t => t.position.x) = some (some 32)) := by
  have h := build_box_horizontal_child_positions 0 ⟨0, 0⟩ ⟨100, 50⟩ ⟨2, 3⟩ (fun _ _ => [])
    [wLeaf, wLeafB] ⟨0, 0⟩ ⟨100, 50⟩ ⟨0⟩ ⟨[]⟩
    (by
      intro t ht
      rcases List.mem_cons.mp ht with rfl | ht'
      · rfl
      · rcases List.mem_singleton.mp ht' with rfl
        rfl)
    (by norm_num [wLeaf, wLeafB, WTree.size])
  have h0 := (h.2 0 (by norm_num)).1
  have h1 := (h.2 1 (by norm_num)).1
  have h1c := (h.2 1 (by norm_num)).2
  refine ⟨?_, ?_, ?_⟩
  · rw [show wParentH = WTree.mk 0 true ⟨0, 0⟩ ⟨100, 50⟩ .horizontal ⟨2, 3⟩
      (fun _ _ => []) ([wLeaf, wLeafB].map some) from rfl]
    rw [h0]
    norm_num
  · rw [show wParentH = WTree.mk 0 true ⟨0, 0⟩ ⟨100, 50⟩ .horizontal ⟨2, 3⟩
      (fun _ _ => []) ([wLeaf, wLeafB].map some) from rfl]
    rw [h1]
    norm_num [wLeaf, WTree.size]
  · rw [show wParentH = WTree.mk 0 true ⟨0, 0⟩ ⟨100, 50⟩ .horizontal ⟨2, 3⟩
      (fun _ _ => []) ([wLeaf, wLeafB].map some) from rfl]
    rw [h1c]
    norm_num [wLeaf, WTree.size]

mutual

/-- All ids stored in a widget subtree: the root's id and every descendant's. -/
def WTree.idsOf : WTree → List Nat
  | .mk i _ _ _ _ _ _ cs => i :: forestIds cs

/-- All ids stored in a forest of optional children (unresolvable ones hold none). -/
def forestIds : List (Option WTree) → List Nat
  | [] => []
  | none :: rest => forestIds rest
  | some t :: rest => t.idsOf ++ forestIds rest

end

theorem idsOf_set_dirty (t : WTree) (b : Bool) : (t.set_dirty b).idsOf = t.idsOf := by
  cases t
  rfl

theorem idsOf_ite_set_dirty (cd : Bool) (t : WTree) :
    (if cd = true then t.set_dirty true else t).idsOf = t.idsOf := by
  cases cd
  · rfl
  · simp [idsOf_set_dirty]

theorem build_clean_collection_eq_loop (i : Nat) (p s : Vector2D) (ax : Axis)
    (off : Vector2D) (r : Vector2D → Vector2D → List RenderInstruction)
    (cs : List (Option WTree)) (pos mx : Vector2D) (m : IDMachine)
    (c : RenderInstructionCollection) :
    ((WTree.mk i false p s ax off r cs).build pos mx m c).collection =
      (buildChildren cs (pos.add off) (mx.sub (off.mulScalar 2)) ax false m c).collection := by
  simp [WTree.build]

/-- The dirty-block of `build` normalised: machine and collection handed to the
child loop of a dirty widget. -/
theorem build_dirty_loop_args (i : Nat) (p s : Vector2D) (ax : Axis) (off : Vector2D)
    (r : Vector2D → Vector2D → List RenderInstruction) (cs : List (Option WTree))
    (pos mx : Vector2D) (m : IDMachine) (c : RenderInstructionCollection) :
    ((WTree.mk i true p s ax off r cs).build pos mx m c).machine =
      (buildChildren cs (pos.add off) (mx.sub (off.mulScalar 2)) ax false
        ⟨(m.id + 1) % USIZE⟩
        ((c.remove i).replace_or_insert ((m.id + 1) % USIZE) (r pos mx))).machine ∧
    ((WTree.mk i true p s ax off r cs).build pos mx m c).collection =
      (buildChildren cs (pos.add off) (mx.sub (off.mulScalar 2)) ax false
        ⟨(m.id + 1) % USIZE⟩
        ((c.remove i).replace_or_insert ((m.id + 1) % USIZE) (r pos mx))).collection := by
  constructor <;>
    simp [WTree.build, WTree.set_position, WTree.set_size, WTree.set_id, WTree.set_dirty,
      WTree.id, WTree.recipe, WTree.position, WTree.size, IDMachine.fetch_id]

/-- The clean branch of `build` hands machine and collection unchanged to the loop. -/
theorem build_clean_loop_args (i : Nat) (p s : Vector2D) (ax : Axis) (off : Vector2D)
    (r : Vector2D → Vector2D → List RenderInstruction) (cs : List (Option WTree))
    (pos mx : Vector2D) (m : IDMachine) (c : RenderInstructionCollection) :
    ((WTree.mk i false p s ax off r cs).build pos mx m c).machine =
      (buildChildren cs (pos.add off) (mx.sub (off.mulScalar 2)) ax false m c).machine ∧
    ((WTree.mk i false p s ax off r cs).build pos mx m c).collection =
      (buildChildren cs (pos.add off) (mx.sub (off.mulScalar 2)) ax false m c).collection := by
  constructor <;> simp [WTree.build]

theorem forestIds_cons_some_length (t : WTree) (rest : List (Option WTree)) :
    (forestIds (some t :: rest)).length = (t.idsOf).length + (forestIds rest).length := by
  simp [forestIds]

theorem idsOf_mk_length (i : Nat) (d : Bool) (p s : Vector2D) (ax : Axis)
    (off : Vector2D) (r : Vector2D → Vector2D → List RenderInstruction)
    (cs : List (Option WTree)) :
    ((WTree.mk i d p s ax off r cs).idsOf).length = (forestIds cs).length + 1 := by
  simp [WTree.idsOf]

mutual

theorem build_preserves_foreign_key (i : Nat) (d : Bool) (p s : Vector2D) (ax : Axis)
    (off : Vector2D) (r : Vector2D → Vector2D → List RenderInstruction)
    (cs : List (Option WTree)) (pos mx : Vector2D) (m : IDMachine)
    (c : RenderInstructionCollection) (K : Nat) (hK : K ≤ m.id)
    (hbound : m.id + 1 + (forestIds cs).length ≤ USIZE - 1)
    (hneK : i ≠ K) (hne : ∀ j ∈ forestIds cs, j ≠ K) :
    ((WTree.mk i d p s ax off r cs).build pos mx m c).collection.lookup K = c.lookup K ∧
    m.id ≤ ((WTree.mk i d p s ax off r cs).build pos mx m c).machine.id ∧
    ((WTree.mk i d p s ax off r cs).build pos mx m c).machine.id ≤
      m.id + 1 + (forestIds cs).length := by
  have h2 : 2 ≤ USIZE := by norm_num [USIZE]
  cases d
  · have hloop := loop_preserves_foreign_key cs (pos.add off) (mx.sub (off.mulScalar 2))
      ax false m c K hK (by omega) hne
    refine ⟨?_, ?_, ?_⟩
    · rw [(build_clean_loop_args i p s ax off r cs pos mx m c).2]
      exact hloop.1
    · rw [(build_clean_loop_args i p s ax off r cs pos mx m c).1]
      exact hloop.2.1
    · rw [(build_clean_loop_args i p s ax off r cs pos mx m c).1]
      omega
  · have hmod : (m.id + 1) % USIZE = m.id + 1 := Nat.mod_eq_of_lt (by omega)
    have hc1 : ((RenderInstructionCollection.remove c i).replace_or_insert (m.id + 1)
        (r pos mx)).lookup K = c.lookup K := by
      show mapLookup K (mapInsert (m.id + 1) (r pos mx) (mapRemove i c.pairs))
        = mapLookup K c.pairs
      rw [mapLookup_mapInsert_ne K (m.id + 1) (r pos mx) _ (by omega),
        mapLookup_mapRemove_ne K i c.pairs (Ne.symm hneK)]
    have hloop := loop_preserves_foreign_key cs (pos.add off) (mx.sub (off.mulScalar 2))
      ax false ⟨m.id + 1⟩
      ((RenderInstructionCollection.remove c i).replace_or_insert (m.id + 1) (r pos mx))
      K (show K ≤ m.id + 1 by omega)
      (show m.id + 1 + (forestIds cs).length ≤ USIZE - 1 by omega) hne
    have hl1 : (buildChildren cs (pos.add off) (mx.sub (off.mulScalar 2)) ax false
        ⟨m.id + 1⟩ ((RenderInstructionCollection.remove c i).replace_or_insert (m.id + 1)
          (r pos mx))).collection.lookup K =
        ((RenderInstructionCollection.remove c i).replace_or_insert (m.id + 1)
          (r pos mx)).lookup K := hloop.1
    have hl2 : m.id + 1 ≤ (buildChildren cs (pos.add off) (mx.sub (off.mulScalar 2)) ax
        false ⟨m.id + 1⟩ ((RenderInstructionCollection.remove c i).replace_or_insert
          (m.id + 1) (r pos mx))).machine.id := hloop.2.1
    have hl3 : (buildChildren cs (pos.add off) (mx.sub (off.mulScalar 2)) ax false
        ⟨m.id + 1⟩ ((RenderInstructionCollection.remove c i).replace_or_insert (m.id + 1)
          (r pos mx))).machine.id ≤ m.id + 1 + (forestIds cs).length := hloop.2.2
    have hargs := build_dirty_loop_args i p s ax off r cs pos mx m c
    rw [hmod] at hargs
    refine ⟨?_, ?_, ?_⟩
    · rw [hargs.2, hl1, hc1]
    · rw [hargs.1]
      omega
    · rw [hargs.1]
      omega
termination_by sizeOf cs + 1
decreasing_by
  all_goals simp_wf

theorem loop_preserves_foreign_key (cs : List (Option WTree)) (pos mx : Vector2D)
    (ax : Axis) (cd : Bool) (m : IDMachine) (c : RenderInstructionCollection) (K : Nat)
    (hK : K ≤ m.id) (hbound : m.id + (forestIds cs).length ≤ USIZE - 1)
    (hne : ∀ j ∈ forestIds cs, j ≠ K) :
    (buildChildren cs pos mx ax cd m c).collection.lookup K = c.lookup K ∧
    m.id ≤ (buildChildren cs pos mx ax cd m c).machine.id ∧
    (buildChildren cs pos mx ax cd m c).machine.id ≤ m.id + (forestIds cs).length := by
  match cs with
  | [] =>
    refine ⟨?_, ?_, ?_⟩ <;> simp [buildChildren, forestIds]
  | none :: rest =>
    have h := loop_preserves_foreign_key rest pos mx ax cd m c K hK
      (by simpa [forestIds] using hbound) (by simpa [forestIds] using hne)
    refine ⟨?_, ?_, ?_⟩
    · rw [show (buildChildren (none :: rest) pos mx ax cd m c).collection =
        (buildChildren rest pos mx ax cd m c).collection from by simp [buildChildren]]
      exact h.1
    · rw [show (buildChildren (none :: rest) pos mx ax cd m c).machine =
        (buildChildren rest pos mx ax cd m c).machine from by simp [buildChildren]]
      exact h.2.1
    · rw [show (buildChildren (none :: rest) pos mx ax cd m c).machine =
        (buildChildren rest pos mx ax cd m c).machine from by simp [buildChildren]]
      have := h.2.2
      simp only [forestIds]
      omega
  | some (WTree.mk ci cd0 cp cs0 cax coff cr ccs) :: rest =>
    have hlen : (forestIds (some (WTree.mk ci cd0 cp cs0 cax coff cr ccs) :: rest)).length
        = (forestIds ccs).length + 1 + (forestIds rest).length := by
      rw [forestIds_cons_some_length, idsOf_mk_length]
    have hneCi : ci ≠ K := by
      refine hne ci ?_
      simp [forestIds, WTree.idsOf]
    have hneCcs : ∀ j ∈ forestIds ccs, j ≠ K := by
      intro j hj
      refine hne j ?_
      simp only [forestIds, WTree.idsOf, List.mem_append, List.mem_cons]
      exact Or.inl (Or.inr hj)
    have hneRest : ∀ j ∈ forestIds rest, j ≠ K := by
      intro j hj
      refine hne j ?_
      simp only [forestIds, List.mem_append]
      exact Or.inr hj
    cases cd
    · -- children_dirty is false: the child is built as it is
      have hb := build_preserves_foreign_key ci cd0 cp cs0 cax coff cr ccs pos
        ((WTree.mk ci cd0 cp cs0 cax coff cr ccs).size.min mx) m c K hK (by omega)
        hneCi hneCcs
      have hr := loop_preserves_foreign_key rest
        (advanceAxis ax mx pos ((WTree.mk ci cd0 cp cs0 cax coff cr ccs).size.min mx)).2
        (advanceAxis ax mx pos ((WTree.mk ci cd0 cp cs0 cax coff cr ccs).size.min mx)).1
        ax (WTree.mk ci cd0 cp cs0 cax coff cr ccs).dirty
        ((WTree.mk ci cd0 cp cs0 cax coff cr ccs).build pos
          ((WTree.mk ci cd0 cp cs0 cax coff cr ccs).size.min mx) m c).machine
        ((WTree.mk ci cd0 cp cs0 cax coff cr ccs).build pos
          ((WTree.mk ci cd0 cp cs0 cax coff cr ccs).size.min mx) m c).collection
        K (by omega) (by omega) hneRest
      refine ⟨?_, ?_, ?_⟩
      · rw [show (buildChildren (some (WTree.mk ci cd0 cp cs0 cax coff cr ccs) :: rest)
            pos mx ax false m c).collection =
          (buildChildren rest
            (advanceAxis ax mx pos ((WTree.mk ci cd0 cp cs0 cax coff cr ccs).size.min mx)).2
            (advanceAxis ax mx pos ((WTree.mk ci cd0 cp cs0 cax coff cr ccs).size.min mx)).1
            ax (WTree.mk ci cd0 cp cs0 cax coff cr ccs).dirty
            ((WTree.mk ci cd0 cp cs0 cax coff cr ccs).build pos
              ((WTree.mk ci cd0 cp cs0 cax coff cr ccs).size.min mx) m c).machine
            ((WTree.mk ci cd0 cp cs0 cax coff cr ccs).build pos
              ((WTree.mk ci cd0 cp cs0 cax coff cr ccs).size.min mx) m c).collection).collection
          from by simp [buildChildren]]
        rw [hr.1, hb.1]
      · rw [show (buildChildren (some (WTree.mk ci cd0 cp cs0 cax coff cr ccs) :: rest)
            pos mx ax false m c).machine =
          (buildChildren rest
            (advanceAxis ax mx pos ((WTree.mk ci cd0 cp cs0 cax coff cr ccs).size.min mx)).2
            (advanceAxis ax mx pos ((WTree.mk ci cd0 cp cs0 cax coff cr ccs).size.min mx)).1
            ax (WTree.mk ci cd0 cp cs0 cax coff cr ccs).dirty
            ((WTree.mk ci cd0 cp cs0 cax coff cr ccs).build pos
              ((WTree.mk ci cd0 cp cs0 cax coff cr ccs).size.min mx) m c).machine
            ((WTree.mk ci cd0 cp cs0 cax coff cr ccs).build pos
              ((WTree.mk ci cd0 cp cs0 cax coff cr ccs).size.min mx) m c).collection).machine
          from by simp [buildChildren]]
        omega
      · rw [show (buildChildren (some (WTree.mk ci cd0 cp cs0 cax coff cr ccs) :: rest)
            pos mx ax false m c).machine =
          (buildChildren rest
            (advanceAxis ax mx pos ((WTree.mk ci cd0 cp cs0 cax coff cr ccs).size.min mx)).2
            (advanceAxis ax mx pos ((WTree.mk ci cd0 cp cs0 cax coff cr ccs).size.min mx)).1
            ax (WTree.mk ci cd0 cp cs0 cax coff cr ccs).dirty
            ((WTree.mk ci cd0 cp cs0 cax coff cr ccs).build pos
              ((WTree.mk ci cd0 cp cs0 cax coff cr ccs).size.min mx) m c).machine
            ((WTree.mk ci cd0 cp cs0 cax coff cr ccs).build pos
              ((WTree.mk ci cd0 cp cs0 cax coff cr ccs).size.min mx) m c).collection).machine
          from by simp [buildChildren]]
        omega
    · -- children_dirty is true: the child is force-marked dirty first
      have hb := build_preserves_foreign_key ci true cp cs0 cax coff cr ccs pos
        ((WTree.mk ci true cp cs0 cax coff cr ccs).size.min mx) m c K hK (by omega)
        hneCi hneCcs
      have hr := loop_preserves_foreign_key rest
        (advanceAxis ax mx pos ((WTree.mk ci true cp cs0 cax coff cr ccs).size.min mx)).2
        (advanceAxis ax mx pos ((WTree.mk ci true cp cs0 cax coff cr ccs).size.min mx)).1
        ax true
        ((WTree.mk ci true cp cs0 cax coff cr ccs).build pos
          ((WTree.mk ci true cp cs0 cax coff cr ccs).size.min mx) m c).machine
        ((WTree.mk ci true cp cs0 cax coff cr ccs).build pos
          ((WTree.mk ci true cp cs0 cax coff cr ccs).size.min mx) m c).collection
        K (by omega) (by omega) hneRest
      refine ⟨?_, ?_, ?_⟩
      · rw [show (buildChildren (some (WTree.mk ci cd0 cp cs0 cax coff cr ccs) :: rest)
            pos mx ax true m c).collection =
          (buildChildren rest
            (advanceAxis ax mx pos ((WTree.mk ci true cp cs0 cax coff cr ccs).size.min mx)).2
            (advanceAxis ax mx pos ((WTree.mk ci true cp cs0 cax coff cr ccs).size.min mx)).1
            ax true
            ((WTree.mk ci true cp cs0 cax coff cr ccs).build pos
              ((WTree.mk ci true cp cs0 cax coff cr ccs).size.min mx) m c).machine
            ((WTree.mk ci true cp cs0 cax coff cr ccs).build pos
              ((WTree.mk ci true cp cs0 cax coff cr ccs).size.min mx) m c).collection).collection
          from by simp [buildChildren, WTree.set_dirty]]
        rw [hr.1, hb.1]
      · rw [show (buildChildren (some (WTree.mk ci cd0 cp cs0 cax coff cr ccs) :: rest)
            pos mx ax true m c).machine =
          (buildChildren rest
            (advanceAxis ax mx pos ((WTree.mk ci true cp cs0 cax coff cr ccs).size.min mx)).2
            (advanceAxis ax mx pos ((WTree.mk ci true cp cs0 cax coff cr ccs).size.min mx)).1
            ax true
            ((WTree.mk ci true cp cs0 cax coff cr ccs).build pos
              ((WTree.mk ci true cp cs0 cax coff cr ccs).size.min mx) m c).machine
            ((WTree.mk ci true cp cs0 cax coff cr ccs).build pos
              ((WTree.mk ci true cp cs0 cax coff cr ccs).size.min mx) m c).collection).machine
          from by simp [buildChildren, WTree.set_dirty]]
        omega
      · rw [show (buildChildren (some (WTree.mk ci cd0 cp cs0 cax coff cr ccs) :: rest)
            pos mx ax true m c).machine =
          (buildChildren rest
            (advanceAxis ax mx pos ((WTree.mk ci true cp cs0 cax coff cr ccs).size.min mx)).2
            (advanceAxis ax mx pos ((WTree.mk ci true cp cs0 cax coff cr ccs).size.min mx)).1
            ax true
            ((WTree.mk ci true cp cs0 cax coff cr ccs).build pos
              ((WTree.mk ci true cp cs0 cax coff cr ccs).size.min mx) m c).machine
            ((WTree.mk ci true cp cs0 cax coff cr ccs).build pos
              ((WTree.mk ci true cp cs0 cax coff cr ccs).size.min mx) m c).collection).machine
          from by simp [buildChildren, WTree.set_dirty]]
        omega
termination_by sizeOf cs
decreasing_by
  all_goals simp_wf
  all_goals omega

end

/-- C10: calling `build` on a widget whose `is_dirty()` is false leaves that
widget's own id, position, size and dirty flag unchanged and does not modify the
instruction-collection entry stored under its id (only descendants may be
mutated). The hypotheses are the reachable-state invariants: every id was issued
by the machine, so none exceeds the machine's counter, the counter has room
before wrap-around, and no descendant carries the clean widget's own id. -/
theorem build_clean_widget_unchanged (w : WTree) (position mx : Vector2D)
    (m : IDMachine) (c : RenderInstructionCollection)
    (hclean : w.dirty = false) (hwid : w.id ≤ m.id)
    (hbound : m.id + (forestIds w.children).length ≤ USIZE - 1)
    (hids : ∀ j ∈ forestIds w.children, j ≠ w.id) :
    (w.build position mx m c).widget.id = w.id ∧
    (w.build position mx m c).widget.position = w.position ∧
    (w.build position mx m c).widget.size = w.size ∧
    (w.build position mx m c).widget.dirty = w.dirty ∧
    (w.build position mx m c).collection.lookup w.id = c.lookup w.id := by
  cases w with
  | mk i d p s ax off r cs =>
    simp only [WTree.dirty] at hclean
    subst hclean
    simp only [WTree.id, WTree.children] at hwid hbound hids
    simp only [WTree.id, WTree.position, WTree.size, WTree.dirty, WTree.children]
    refine ⟨(build_clean_fields i p s ax off r cs position mx m c).1,
      (build_clean_fields i p s ax off r cs position mx m c).2.1,
      (build_clean_fields i p s ax off r cs position mx m c).2.2.1,
      (build_clean_fields i p s ax off r cs position mx m c).2.2.2, ?_⟩
    rw [(build_clean_loop_args i p s ax off r cs position mx m c).2]
    exact (loop_preserves_foreign_key cs (position.add off) (mx.sub (off.mulScalar 2))
      ax false m c i hwid hbound hids).1

/-- A concrete clean parent with id 4 holding the dirty child `wLeaf`. -/
def wCleanParent : WTree :=
  .mk 4 false ⟨1, 2⟩ ⟨100, 50⟩ .horizontal ⟨0, 0⟩ (fun _ _ => []) [some wLeaf]

/-- Witness for C10: building the clean parent (its dirty child is rebuilt under
a fresh id) keeps its id 4, its fields, and the collection entry under key 4. -/
theorem build_clean_widget_unchanged_witness :
    (wCleanParent.build ⟨1, 2⟩ ⟨100, 50⟩ ⟨4⟩ ⟨[(4, [])]⟩).widget.id = 4 ∧
    (wCleanParent.build ⟨1, 2⟩ ⟨100, 50⟩ ⟨4⟩ ⟨[(4, [])]⟩).widget.position = ⟨1, 2⟩ ∧
    (wCleanParent.build ⟨1, 2⟩ ⟨100, 50⟩ ⟨4⟩ ⟨[(4, [])]⟩).widget.dirty = false ∧
    (wCleanParent.build ⟨1, 2⟩ ⟨100, 50⟩ ⟨4⟩ ⟨[(4, [])]⟩).collection.lookup 4
      = some [] := by
  have h := build_clean_widget_unchanged wCleanParent ⟨1, 2⟩ ⟨100, 50⟩ ⟨4⟩ ⟨[(4, [])]⟩
    rfl (show (4 : Nat) ≤ 4 by norm_num)
    (by
      show 4 + (forestIds [some wLeaf]).length ≤ USIZE - 1
      norm_num [forestIds, WTree.idsOf, wLeaf, USIZE])
    (by
      intro j hj
      simp only [forestIds, WTree.idsOf, wLeaf, List.append_nil, List.mem_cons,
        List.not_mem_nil, or_false] at hj
      subst hj
      show (0 : Nat) ≠ 4
      norm_num)
  exact ⟨h.1, h.2.1, h.2.2.2.1, h.2.2.2.2.trans (by decide)⟩

end Hyber
